import Mathlib

/-
Verification development for the arvox-backend repository.

The definitions below are shallow embeddings, translated from the
TypeScript sources:
  - src/utils/pagination.util.ts   (PaginationUtil)
  - src/utils/response.util.ts     (ResponseUtil)
  - src/utils/validation.util.ts   (ValidationUtil, RouteBuilder)
  - src/core/base-controller.ts    (BaseController route creators)
  - src/core/arvox-framework.ts    (ArvoxFramework orchestrator)

JavaScript numbers in the fragment exercised here are integer-valued or
NaN, so they are modelled as Option Int: none stands for NaN, some n for
the integer n.  Math.max / Math.min / arithmetic propagate NaN, exactly
as in JavaScript.  Exact rational division with Int.ceil models
Math.ceil(a / b) on integer inputs.
-/

namespace Arvox

/-- JavaScript number restricted to the integer-or-NaN fragment:
none is NaN, some n is the integer n. -/
abbrev JSNum : Type := Option Int

/-- Math.max on two JS numbers: NaN if either argument is NaN. -/
def jsMax (a b : JSNum) : JSNum :=
  match a, b with
  | some x, some y => some (max x y)
  | _, _ => none

/-- Math.min on two JS numbers: NaN if either argument is NaN. -/
def jsMin (a b : JSNum) : JSNum :=
  match a, b with
  | some x, some y => some (min x y)
  | _, _ => none

/-- Subtraction on JS numbers, propagating NaN. -/
def jsSub (a b : JSNum) : JSNum :=
  match a, b with
  | some x, some y => some (x - y)
  | _, _ => none

/-- Multiplication on JS numbers, propagating NaN.  (In the fragment
used here both operands are integers or NaN, never infinities, so
NaN-propagation is the only special case.) -/
def jsMul (a b : JSNum) : JSNum :=
  match a, b with
  | some x, some y => some (x * y)
  | _, _ => none

/-- Value of a list of decimal digit characters, most significant first,
accumulated left to right as parseInt does. -/
def digitsVal : List Char → Int → Int
  | [], acc => acc
  | c :: cs, acc => digitsVal cs (acc * 10 + ((c.toNat : Int) - 48))

/-- Whitespace skipped by parseInt. -/
def isJsSpace (c : Char) : Bool :=
  c == ' ' || c == '\t' || c == '\n' || c == '\r'

/-- JavaScript parseInt(s, 10): skip leading whitespace, read an
optional sign, then the longest prefix of decimal digits; NaN (none)
when that prefix is empty, otherwise the signed value. -/
def jsParseInt (s : String) : JSNum :=
  let cs := s.data.dropWhile isJsSpace
  let signAndRest : Int × List Char :=
    match cs with
    | '-' :: r => (-1, r)
    | '+' :: r => (1, r)
    | r => (1, r)
  let ds := signAndRest.2.takeWhile Char.isDigit
  if ds.isEmpty then none else some (signAndRest.1 * digitsVal ds 0)

/-- JavaScript s1 || s2 on an optional string: undefined and the empty
string are falsy, so both fall through to the default. -/
def jsOrString (v : Option String) (d : String) : String :=
  match v with
  | some s => if s = "" then d else s
  | none => d

/-- Result record of PaginationUtil.extractFromContext. -/
structure PaginationParams where
  page : JSNum
  limit : JSNum
  skip : JSNum
deriving DecidableEq, Repr

namespace PaginationUtil

/-- PaginationUtil.defaultLimit (pagination.util.ts line 6). -/
def defaultLimit : Int := 10

/-- PaginationUtil.maxLimit (pagination.util.ts line 7). -/
def maxLimit : Int := 100

/-- PaginationUtil.extractFromContext (pagination.util.ts lines 14-23),
with the raw query parameters page and limit passed explicitly
(none models an absent parameter):
  page  = Math.max(1, parseInt(query page  || "1", 10))
  limit = Math.min(100, Math.max(1, parseInt(query limit || "10", 10)))
  skip  = (page - 1) * limit -/
def extractFromContext (pageQ limitQ : Option String) : PaginationParams :=
  let page := jsMax (some 1) (jsParseInt (jsOrString pageQ "1"))
  let limit :=
    jsMin (some maxLimit)
      (jsMax (some 1) (jsParseInt (jsOrString limitQ (toString defaultLimit))))
  let skip := jsMul (jsSub page (some 1)) limit
  { page := page, limit := limit, skip := skip }

end PaginationUtil

/-- Metadata record returned by PaginationUtil.calculateMetadata. -/
structure PaginationMeta where
  total : Int
  page : Int
  limit : Int
  totalPages : Int
  hasNext : Bool
  hasPrev : Bool
  startIndex : Int
  endIndex : Int
  showing : String
deriving DecidableEq, Repr

/-- PaginationUtil.calculateMetadata (pagination.util.ts lines 32-50):
  totalPages = Math.ceil(total / limit)    (exact rational ceiling)
  hasNext    = page < totalPages
  hasPrev    = page > 1
  startIndex = (page - 1) * limit + 1
  endIndex   = Math.min(page * limit, total) -/
def PaginationUtil.calculateMetadata (total page limit : Int) : PaginationMeta :=
  let totalPages : Int := Int.ceil ((total : ℚ) / (limit : ℚ))
  let startIndex : Int := (page - 1) * limit + 1
  let endIndex : Int := min (page * limit) total
  { total := total
    page := page
    limit := limit
    totalPages := totalPages
    hasNext := decide (page < totalPages)
    hasPrev := decide (page > 1)
    startIndex := startIndex
    endIndex := endIndex
    showing := toString startIndex ++ "-" ++ toString endIndex
      ++ " of " ++ toString total }

/-- Pagination object nested in ResponseUtil.paginated. -/
structure PaginatedPagination where
  total : Int
  page : Int
  limit : Int
  totalPages : Int
  hasNext : Bool
  hasPrev : Bool
deriving DecidableEq, Repr

/-- Data object of a paginated response: items plus pagination. -/
structure PaginatedData (A : Type) where
  items : List A
  pagination : PaginatedPagination
deriving DecidableEq, Repr

/-- JSON body of a paginated response. -/
structure PaginatedJson (A : Type) where
  success : Bool
  data : PaginatedData A
deriving DecidableEq, Repr

/-- A paginated response: JSON body plus HTTP status. -/
structure PaginatedResponse (A : Type) where
  json : PaginatedJson A
  status : Int
deriving DecidableEq, Repr

/-- ResponseUtil.paginated (response.util.ts lines 47-73):
  totalPages = Math.ceil(total / limit)
  body = success true, data = items and the six pagination fields,
  status defaults to 200. -/
def ResponseUtil.paginated {A : Type} (items : List A)
    (total page limit : Int) (status : Int := 200) : PaginatedResponse A :=
  let totalPages : Int := Int.ceil ((total : ℚ) / (limit : ℚ))
  { json :=
      { success := true
        data :=
          { items := items
            pagination :=
              { total := total
                page := page
                limit := limit
                totalPages := totalPages
                hasNext := decide (page < totalPages)
                hasPrev := decide (page > 1) } } }
    status := status }

/-- One field error as received by ResponseUtil.validationError. -/
structure FieldIssue where
  field : String
  message : String
deriving DecidableEq, Repr

/-- JSON body of a validation-error response. -/
structure ValidationErrorJson where
  success : Bool
  error : String
  details : List FieldIssue
deriving DecidableEq, Repr

/-- A validation-error response: JSON body plus HTTP status. -/
structure ValidationErrorResponse where
  json : ValidationErrorJson
  status : Int
deriving DecidableEq, Repr

/-- ResponseUtil.validationError (response.util.ts lines 81-90):
body is success false, error "Validation failed", details the given
errors; the status parameter defaults to 422. -/
def ResponseUtil.validationError (errors : List FieldIssue)
    (status : Int := 422) : ValidationErrorResponse :=
  { json :=
      { success := false
        error := "Validation failed"
        details := errors }
    status := status }

/-- JavaScript x || d on an optional number: undefined, 0 and NaN are
falsy; in the statusCode position only undefined and integers occur, so
the falsy cases are absence and 0. -/
def jsOrNum (v : Option Int) (d : Int) : Int :=
  match v with
  | some n => if n = 0 then d else n
  | none => d

namespace BaseController

/-- Status-code key set of the responses object built by
BaseController.createPostRoute (base-controller.ts lines 182-196):
the success entry at options.statusCode || 201, a 400 entry, and a 401
entry exactly when options.security is truthy. -/
def createPostRouteResponses (security : Option Bool)
    (statusCode : Option Int) : List Int :=
  [jsOrNum statusCode 201, 400]
    ++ (if security = some true then [401] else [])

/-- Status-code key set of the responses object built by
BaseController.createListRoute (base-controller.ts lines 239-263):
200, 400, and 401 exactly when options.security is truthy. -/
def createListRouteResponses (security : Option Bool) : List Int :=
  [200, 400] ++ (if security = some true then [401] else [])

/-- Status-code key set of the responses object built by
BaseController.createGetByIdRoute (base-controller.ts lines 303-317):
200, 404, and 401 exactly when options.security is truthy. -/
def createGetByIdRouteResponses (security : Option Bool) : List Int :=
  [200, 404] ++ (if security = some true then [401] else [])

/-- Status-code key set of the responses object built by
BaseController.createPutRoute (base-controller.ts lines 366-381):
200, 400, 404, and 401 exactly when options.security is truthy. -/
def createPutRouteResponses (security : Option Bool) : List Int :=
  [200, 400, 404] ++ (if security = some true then [401] else [])

/-- Status-code key set of the responses object built by
BaseController.createDeleteRoute (base-controller.ts lines 421-437):
200, 404, and 401 exactly when options.security is truthy. -/
def createDeleteRouteResponses (security : Option Bool) : List Int :=
  [200, 404] ++ (if security = some true then [401] else [])

end BaseController

namespace RouteBuilder

/-- Status-code key set of RouteBuilder.post responses
(validation.util.ts RouteBuilder, lines 261-275). -/
def postResponses (security : Option Bool) (statusCode : Option Int) :
    List Int :=
  [jsOrNum statusCode 201, 400]
    ++ (if security = some true then [401] else [])

/-- Status-code key set of RouteBuilder.getList responses
(validation.util.ts RouteBuilder, lines 301-325). -/
def getListResponses (security : Option Bool) : List Int :=
  [200, 400] ++ (if security = some true then [401] else [])

/-- Status-code key set of RouteBuilder.getById responses
(validation.util.ts RouteBuilder, lines 348-362). -/
def getByIdResponses (security : Option Bool) : List Int :=
  [200, 404] ++ (if security = some true then [401] else [])

/-- Status-code key set of RouteBuilder.put responses
(validation.util.ts RouteBuilder, lines 392-407). -/
def putResponses (security : Option Bool) : List Int :=
  [200, 400, 404] ++ (if security = some true then [401] else [])

/-- Status-code key set of RouteBuilder.delete responses
(validation.util.ts RouteBuilder, lines 429-445). -/
def deleteResponses (security : Option Bool) : List Int :=
  [200, 404] ++ (if security = some true then [401] else [])

end RouteBuilder

/-- Outcome of an awaited JavaScript call: a value or a thrown error. -/
inductive JsResult (A : Type) where
  | ok (value : A)
  | thrown (msg : String)
deriving DecidableEq, Repr

/-- Health record reported by a service or module health check. -/
structure HealthResult where
  healthy : Bool
  message : Option String
deriving DecidableEq, Repr

/-- Model of an IService instance: its name and the outcome of each of
its lifecycle calls (service.interface.ts: getName, initialize, cleanup
and healthCheck are all required). -/
structure ServiceModel where
  name : String
  initResult : JsResult Unit
  cleanupResult : JsResult Unit
  healthResult : JsResult HealthResult
deriving DecidableEq, Repr

/-- Model of an IModule instance: its name and the outcome of each of
its lifecycle calls (module.interface.ts: cleanup and healthCheck are
optional, modelled by Option; none means the method is absent). -/
structure ModuleModel where
  name : String
  initResult : JsResult Unit
  routesResult : JsResult Unit
  cleanupImpl : Option (JsResult Unit)
  healthImpl : Option (JsResult HealthResult)
deriving DecidableEq, Repr

/-- Registry state of an ArvoxFramework instance: the two insertion
ordered Maps of arvox-framework.ts (modelled as lists, names unique by
the registration guards) and the isInitialized flag. -/
structure FrameworkState where
  modules : List ModuleModel
  services : List ServiceModel
  isInitialized : Bool
deriving DecidableEq, Repr

namespace ArvoxFramework

/-- ArvoxFramework.registerModule (arvox-framework.ts lines 86-101).
Both guards throw before the Map is touched, so the returned state
equals the input state whenever an error message is produced. -/
def registerModule (st : FrameworkState) (m : ModuleModel) :
    FrameworkState × Option String :=
  if st.isInitialized then
    (st, some "Cannot register modules after framework initialization")
  else if st.modules.any (fun m2 => m2.name = m.name) then
    (st, some ("Module " ++ m.name ++ " is already registered"))
  else
    ({ st with modules := st.modules ++ [m] }, none)

/-- ArvoxFramework.registerService (arvox-framework.ts lines 108-123).
Both guards throw before the Map is touched. -/
def registerService (st : FrameworkState) (s : ServiceModel) :
    FrameworkState × Option String :=
  if st.isInitialized then
    (st, some "Cannot register services after framework initialization")
  else if st.services.any (fun s2 => s2.name = s.name) then
    (st, some ("Service " ++ s.name ++ " is already registered"))
  else
    ({ st with services := st.services ++ [s] }, none)

end ArvoxFramework

/-- One observable call made during ArvoxFramework.initialize. -/
inductive BootEvent where
  | initService (name : String)
  | initModule (name : String)
  | registerRoutes (name : String)
deriving DecidableEq, Repr

/-- Shape shared by the three loops of ArvoxFramework.initialize: call
each element in order, record the call as an event, and rethrow the
first throw (the catch blocks in the source log and rethrow). -/
def runLoop {α : Type} (call : α → JsResult Unit) (ev : α → BootEvent) :
    List α → List BootEvent × Option String
  | [] => ([], none)
  | a :: rest =>
    match call a with
    | .ok _ =>
      let r := runLoop call ev rest
      (ev a :: r.1, r.2)
    | .thrown e => ([ev a], some e)

/-- The service-initialization loop of ArvoxFramework.initialize
(arvox-framework.ts lines 155-163). -/
def runServiceInits (ss : List ServiceModel) :
    List BootEvent × Option String :=
  runLoop (fun s => s.initResult) (fun s => .initService s.name) ss

/-- The module-initialization loop of ArvoxFramework.initialize
(arvox-framework.ts lines 167-175). -/
def runModuleInits (ms : List ModuleModel) :
    List BootEvent × Option String :=
  runLoop (fun m => m.initResult) (fun m => .initModule m.name) ms

/-- The route-registration loop of ArvoxFramework.initialize
(arvox-framework.ts lines 179-187). -/
def runRouteRegs (ms : List ModuleModel) :
    List BootEvent × Option String :=
  runLoop (fun m => m.routesResult) (fun m => .registerRoutes m.name) ms

/-- ArvoxFramework.initialize (arvox-framework.ts lines 146-197),
named initAll here.  Returns the trace of lifecycle calls made, the
resulting registry state, and the propagated error if any: all service
initializations run first in registration order, then all module
initializations, then all route registrations; any throw is rethrown
immediately and isInitialized is only set after every step succeeded. -/
def ArvoxFramework.initAll (st : FrameworkState) :
    List BootEvent × FrameworkState × Option String :=
  if st.isInitialized then
    ([], st, some "Framework is already initialized")
  else
    let s := runServiceInits st.services
    match s.2 with
    | some e => (s.1, st, some e)
    | none =>
      let m := runModuleInits st.modules
      match m.2 with
      | some e => (s.1 ++ m.1, st, some e)
      | none =>
        let r := runRouteRegs st.modules
        match r.2 with
        | some e => (s.1 ++ m.1 ++ r.1, st, some e)
        | none => (s.1 ++ m.1 ++ r.1, { st with isInitialized := true }, none)

/-- One observable cleanup call made during ArvoxFramework.shutdown. -/
inductive ShutdownEvent where
  | cleanupModule (name : String)
  | cleanupService (name : String)
deriving DecidableEq, Repr

/-- The module-cleanup loop of ArvoxFramework.shutdown
(arvox-framework.ts lines 311-320): cleanup is called only when the
module implements it, and a throw is caught and logged, so the loop
always continues; the outcome value is never inspected. -/
def runModuleCleanups : List ModuleModel → List ShutdownEvent
  | [] => []
  | m :: rest =>
    match m.cleanupImpl with
    | some _ => .cleanupModule m.name :: runModuleCleanups rest
    | none => runModuleCleanups rest

/-- ArvoxFramework.shutdown (arvox-framework.ts lines 307-333): module
cleanups in registration order, then service cleanups in registration
order; every throw is caught, so the function itself never throws and
every remaining cleanup is still attempted. -/
def ArvoxFramework.shutdown (st : FrameworkState) : List ShutdownEvent :=
  runModuleCleanups st.modules
    ++ st.services.map (fun s => .cleanupService s.name)

/-- Overall health value of ArvoxFramework.getHealthStatus. -/
inductive OverallHealth where
  | healthy
  | degraded
  | unhealthy
deriving DecidableEq, Repr

/-- Health entry computed for one service (arvox-framework.ts lines
348-357): the reported record, or healthy false with the thrown
message when the health check throws. -/
def serviceHealthOf (s : ServiceModel) : HealthResult :=
  match s.healthResult with
  | .ok h => h
  | .thrown e => { healthy := false, message := some e }

/-- Health entry computed for one module (arvox-framework.ts lines
360-373): as for services, except a module with no healthCheck method
reports healthy true. -/
def moduleHealthOf (m : ModuleModel) : HealthResult :=
  match m.healthImpl with
  | some (.ok h) => h
  | some (.thrown e) => { healthy := false, message := some e }
  | none => { healthy := true, message := some "No health check implemented" }

/-- ArvoxFramework.getHealthStatus (arvox-framework.ts lines 339-388):
per-service and per-module health entries, and the overall value
  allHealthy    = every entry healthy
  someUnhealthy = some entry not healthy
  overall       = allHealthy ? healthy : someUnhealthy ? degraded
                  : unhealthy -/
def ArvoxFramework.getHealthStatus (st : FrameworkState) :
    OverallHealth × List (String × HealthResult)
      × List (String × HealthResult) :=
  let serviceHealth := st.services.map (fun s => (s.name, serviceHealthOf s))
  let moduleHealth := st.modules.map (fun m => (m.name, moduleHealthOf m))
  let allHealthy := serviceHealth.all (fun p => p.2.healthy)
    && moduleHealth.all (fun p => p.2.healthy)
  let someUnhealthy := serviceHealth.any (fun p => !p.2.healthy)
    || moduleHealth.any (fun p => !p.2.healthy)
  let overall :=
    if allHealthy then OverallHealth.healthy
    else if someUnhealthy then OverallHealth.degraded
    else OverallHealth.unhealthy
  (overall, serviceHealth, moduleHealth)

/-- One issue of a zod validation error: a path into the data and a
message. -/
structure ZodIssue where
  path : List String
  message : String
deriving DecidableEq, Repr

/-- Outcome of running a zod schema on a datum: a parsed value, or a
ZodError carrying a list of issues.  A schema is modelled as a function
into this type; zod guarantees that parse and safeParse agree, parse
throwing exactly the ZodError that safeParse returns. -/
inductive ParseOutcome (A : Type) where
  | ok (value : A)
  | issues (errs : List ZodIssue)
deriving DecidableEq, Repr

/-- One formatted field error of ValidationUtil.safeValidate. -/
structure FieldError where
  path : String
  message : String
deriving DecidableEq, Repr

/-- Result of ValidationUtil.safeValidate: success with data, or
failure with formatted per-field errors. -/
inductive SafeValidateResult (A : Type) where
  | success (data : A)
  | failure (errors : List FieldError)
deriving DecidableEq, Repr

/-- ValidationUtil.validate (validation.util.ts lines 101-113): parse
the data; on a ZodError throw a new Error whose message joins one
"path: message" segment per issue with ", " after the "Validation
failed: " preamble. -/
def ValidationUtil.validate {B A : Type} (data : B)
    (schema : B → ParseOutcome A) : JsResult A :=
  match schema data with
  | .ok v => .ok v
  | .issues errs =>
    .thrown ("Validation failed: "
      ++ String.intercalate ", "
        (errs.map (fun i => String.intercalate "." i.path ++ ": " ++ i.message)))

/-- ValidationUtil.safeValidate (validation.util.ts lines 121-135):
safeParse the data and return success with the value, or failure with
one formatted record per issue; no branch throws. -/
def ValidationUtil.safeValidate {B A : Type} (data : B)
    (schema : B → ParseOutcome A) : SafeValidateResult A :=
  match schema data with
  | .ok v => .success v
  | .issues errs =>
    .failure (errs.map (fun i =>
      { path := String.intercalate "." i.path, message := i.message }))

/-- A module named M whose lifecycle calls all succeed and which has no
optional methods; used as a concrete test instance. -/
def moduleM : ModuleModel :=
  { name := "M"
    initResult := .ok ()
    routesResult := .ok ()
    cleanupImpl := none
    healthImpl := none }

/-- A service whose lifecycle calls all succeed, reporting healthy;
used as a concrete test instance under several names. -/
def okService (nm : String) : ServiceModel :=
  { name := nm
    initResult := .ok ()
    cleanupResult := .ok ()
    healthResult := .ok { healthy := true, message := none } }

/-- A service whose health check reports unhealthy; used as a concrete
test instance. -/
def sickService (nm : String) : ServiceModel :=
  { name := nm
    initResult := .ok ()
    cleanupResult := .ok ()
    healthResult := .ok { healthy := false, message := some "down" } }

/-- A registry holding exactly the module M, not yet initialized; used
as a concrete test instance. -/
def stateWithM : FrameworkState :=
  { modules := [moduleM], services := [], isInitialized := false }

/-- The end-to-end bootstrap scenario of the spec: services A and B and
module M registered, nothing initialized yet. -/
def scenarioABM : FrameworkState :=
  { modules := [moduleM]
    services := [okService "A", okService "B"]
    isInitialized := false }

/-- A registry whose single service reports unhealthy; used as a
concrete test instance. -/
def scenarioSick : FrameworkState :=
  { modules := [moduleM]
    services := [sickService "S"]
    isInitialized := false }

/-- A zod schema on integers that accepts nonnegative numbers and
rejects negative ones with two issues; used as a concrete test
instance for the validation wrappers. -/
def nonnegSchema (n : Int) : ParseOutcome Int :=
  if n < 0 then
    .issues [{ path := ["a"], message := "must be positive" },
      { path := ["b", "c"], message := "required" }]
  else
    .ok n

/-- For a positive divisor, the rational ceiling of an integer quotient
is the negated floor division of the negated numerator.  This gives the
Math.ceil(total / limit) expression a purely integer closed form. -/
theorem ceil_ratCast_div_eq_neg_ediv (a b : Int) (hb : 0 < b) :
    ⌈(a : ℚ) / (b : ℚ)⌉ = -((-a) / b) := by
  have h1 : ⌈(a : ℚ) / (b : ℚ)⌉ = -⌊-((a : ℚ) / (b : ℚ))⌋ := by
    rw [← Int.ceil_neg, neg_neg]
  rw [h1, ← neg_div, ← Int.cast_neg]
  have h2 : ((b : ℚ)) = ((b.toNat : ℕ) : ℚ) := by
    exact_mod_cast (Int.toNat_of_nonneg hb.le).symm
  rw [h2, Rat.floor_intCast_div_natCast, Int.toNat_of_nonneg hb.le]

/-- C1: for every total at least 0, page at least 1 and limit at least
1, the metadata computed by PaginationUtil.calculateMetadata and by
ResponseUtil.paginated satisfies totalPages = ceil(total / limit)
(also given in closed integer form), hasNext = (page < totalPages) and
hasPrev = (page > 1). -/
theorem c1_pagination_metadata_invariants (total page limit : Int)
    (_htotal : 0 ≤ total) (_hpage : 1 ≤ page) (hlimit : 1 ≤ limit) :
    ((PaginationUtil.calculateMetadata total page limit).totalPages
        = ⌈(total : ℚ) / (limit : ℚ)⌉
      ∧ (PaginationUtil.calculateMetadata total page limit).totalPages
        = -((-total) / limit)
      ∧ ((PaginationUtil.calculateMetadata total page limit).hasNext = true
        ↔ page < (PaginationUtil.calculateMetadata total page limit).totalPages)
      ∧ ((PaginationUtil.calculateMetadata total page limit).hasPrev = true
        ↔ 1 < page))
    ∧ ∀ (items : List Int) (status : Int),
      (ResponseUtil.paginated items total page limit
          status).json.data.pagination.totalPages
        = ⌈(total : ℚ) / (limit : ℚ)⌉
      ∧ ((ResponseUtil.paginated items total page limit
          status).json.data.pagination.hasNext = true
        ↔ page < (ResponseUtil.paginated items total page limit
            status).json.data.pagination.totalPages)
      ∧ ((ResponseUtil.paginated items total page limit
          status).json.data.pagination.hasPrev = true
        ↔ 1 < page) := by
  have hdiv := ceil_ratCast_div_eq_neg_ediv total limit (by omega)
  refine ⟨⟨rfl, hdiv, ?_, ?_⟩, fun items status => ⟨rfl, ?_, ?_⟩⟩ <;>
    simp [PaginationUtil.calculateMetadata, ResponseUtil.paginated]

/-- Witness for c1_pagination_metadata_invariants at the end-to-end
scenario of the spec: total 12, page 2, limit 5 gives totalPages 3,
hasNext true, hasPrev true. -/
theorem c1_pagination_metadata_invariants_witness :
    (PaginationUtil.calculateMetadata 12 2 5).totalPages = 3
    ∧ (PaginationUtil.calculateMetadata 12 2 5).hasNext = true
    ∧ (PaginationUtil.calculateMetadata 12 2 5).hasPrev = true := by
  obtain ⟨⟨hceil, hdiv, hnext, hprev⟩, hpag⟩ :=
    c1_pagination_metadata_invariants 12 2 5 (by decide) (by decide) (by decide)
  refine ⟨?_, ?_, ?_⟩
  · rw [hdiv]; decide
  · exact hnext.mpr (by rw [hdiv]; decide)
  · exact hprev.mpr (by decide)

/-- C5, code behavior at the failing input: parseInt("abc") is NaN and
Math.max(1, NaN) is NaN in JavaScript, so extractFromContext yields
page NaN and skip NaN (none in the model), not the documented defaults
page 1 and limit 10. -/
theorem c5_extract_nonnumeric_yields_nan :
    PaginationUtil.extractFromContext (some "abc") none
      = { page := none, limit := some 10, skip := none }
    ∧ PaginationUtil.extractFromContext (some "abc") none
      ≠ { page := some 1, limit := some 10, skip := some 0 } := by
  decide

/-- C6: on integer-valued page and limit strings extractFromContext
clamps as documented: page = max(1, parsed page), limit = min(100,
max(1, parsed limit)), skip = (page - 1) * limit; in particular
page "-5" with limit "1000" yields page 1 and limit 100. -/
theorem c6_extract_clamps_integer_input (ps ls : String) (p0 l0 : Int)
    (hp : jsParseInt ps = some p0) (hl : jsParseInt ls = some l0)
    (hpne : ps ≠ "") (hlne : ls ≠ "") :
    (PaginationUtil.extractFromContext (some ps) (some ls)
      = { page := some (max 1 p0),
          limit := some (min 100 (max 1 l0)),
          skip := some ((max 1 p0 - 1) * min 100 (max 1 l0)) })
    ∧ PaginationUtil.extractFromContext (some "-5") (some "1000")
      = { page := some 1, limit := some 100, skip := some 0 } := by
  constructor
  · simp [PaginationUtil.extractFromContext, jsOrString, hpne, hlne, hp, hl,
      jsMax, jsMin, jsSub, jsMul, PaginationUtil.maxLimit]
  · decide

/-- Witness for c6_extract_clamps_integer_input at the clamping inputs
of the spec: page "-5" and limit "1000". -/
theorem c6_extract_clamps_integer_input_witness :
    PaginationUtil.extractFromContext (some "-5") (some "1000")
      = { page := some (max 1 (-5)),
          limit := some (min 100 (max 1 1000)),
          skip := some ((max 1 (-5) - 1) * min 100 (max 1 1000)) } :=
  (c6_extract_clamps_integer_input "-5" "1000" (-5) 1000
    (by decide) (by decide) (by decide) (by decide)).1

/-- C10: ResponseUtil.validationError returns status 422 by default
(not 400), with body exactly success false, error "Validation failed",
details the given errors. -/
theorem c10_validation_error_defaults (errors : List FieldIssue) :
    ResponseUtil.validationError errors
      = { json := { success := false, error := "Validation failed",
                    details := errors },
          status := 422 }
    ∧ (ResponseUtil.validationError errors).status ≠ 400 :=
  ⟨rfl, by simp [ResponseUtil.validationError]⟩

/-- C2, counterexample to the claim as stated: a Create descriptor
whose explicit success statusCode is 401 yields a route whose response
key set contains a 401 entry although its security option is absent. -/
theorem c2_counterexample_statusCode_401 :
    (401 : Int) ∈ BaseController.createPostRouteResponses none (some 401)
    ∧ ((none : Option Bool) = some true ↔ False) := by
  decide

/-- C2 as amended: for all five route shapes of BaseController and of
RouteBuilder, the response key set contains a 401 entry exactly when
the security option is true, provided (for the Create shape only) that
the explicit success status code does not itself equal 401 after the
statusCode-or-201 defaulting. -/
theorem c2_security_gives_401_amended (security : Option Bool)
    (statusCode : Option Int) (hsc : jsOrNum statusCode 201 ≠ 401) :
    ((401 : Int) ∈ BaseController.createPostRouteResponses security statusCode
      ↔ security = some true)
    ∧ ((401 : Int) ∈ BaseController.createListRouteResponses security
      ↔ security = some true)
    ∧ ((401 : Int) ∈ BaseController.createGetByIdRouteResponses security
      ↔ security = some true)
    ∧ ((401 : Int) ∈ BaseController.createPutRouteResponses security
      ↔ security = some true)
    ∧ ((401 : Int) ∈ BaseController.createDeleteRouteResponses security
      ↔ security = some true)
    ∧ ((401 : Int) ∈ RouteBuilder.postResponses security statusCode
      ↔ security = some true)
    ∧ ((401 : Int) ∈ RouteBuilder.getListResponses security
      ↔ security = some true)
    ∧ ((401 : Int) ∈ RouteBuilder.getByIdResponses security
      ↔ security = some true)
    ∧ ((401 : Int) ∈ RouteBuilder.putResponses security
      ↔ security = some true)
    ∧ ((401 : Int) ∈ RouteBuilder.deleteResponses security
      ↔ security = some true) := by
  by_cases hs : security = some true <;>
    simp [BaseController.createPostRouteResponses,
      BaseController.createListRouteResponses,
      BaseController.createGetByIdRouteResponses,
      BaseController.createPutRouteResponses,
      BaseController.createDeleteRouteResponses,
      RouteBuilder.postResponses, RouteBuilder.getListResponses,
      RouteBuilder.getByIdResponses, RouteBuilder.putResponses,
      RouteBuilder.deleteResponses, hs, hsc, Ne.symm hsc]

/-- Witness for c2_security_gives_401_amended: with security true and
no explicit status code, the Create route carries a 401 entry. -/
theorem c2_security_gives_401_amended_witness :
    (401 : Int) ∈ BaseController.createPostRouteResponses (some true) none :=
  (c2_security_gives_401_amended (some true) none (by decide)).1.mpr rfl

/-- C3: registering a module or service with an already-registered name
or after initialization reports an error, and the failed call leaves
the registry exactly as it was. -/
theorem c3_registration_guards (st : FrameworkState)
    (m : ModuleModel) (s : ServiceModel) :
    ((st.isInitialized = true ∨ ∃ m2 ∈ st.modules, m2.name = m.name) →
      (ArvoxFramework.registerModule st m).2.isSome = true
      ∧ (ArvoxFramework.registerModule st m).1 = st)
    ∧ ((st.isInitialized = true ∨ ∃ s2 ∈ st.services, s2.name = s.name) →
      (ArvoxFramework.registerService st s).2.isSome = true
      ∧ (ArvoxFramework.registerService st s).1 = st) := by
  constructor
  · intro h
    unfold ArvoxFramework.registerModule
    rcases h with h | h
    · simp [h]
    · have hdup : st.modules.any (fun m2 => m2.name = m.name) = true := by
        simpa [List.any_eq_true] using h
      by_cases hinit : st.isInitialized <;> simp [hinit, hdup]
  · intro h
    unfold ArvoxFramework.registerService
    rcases h with h | h
    · simp [h]
    · have hdup : st.services.any (fun s2 => s2.name = s.name) = true := by
        simpa [List.any_eq_true] using h
      by_cases hinit : st.isInitialized <;> simp [hinit, hdup]

/-- Witness for c3_registration_guards: registering a second module
named M on a registry already holding a module named M fails and leaves
the registry unchanged. -/
theorem c3_registration_guards_witness :
    (ArvoxFramework.registerModule stateWithM moduleM).2.isSome = true
    ∧ (ArvoxFramework.registerModule stateWithM moduleM).1 = stateWithM :=
  (c3_registration_guards stateWithM moduleM (okService "S")).1
    (Or.inr (by decide))

/-- A loop whose calls all succeed produces one event per element, in
order, and no error. -/
theorem runLoop_all_ok {α : Type} (call : α → JsResult Unit)
    (ev : α → BootEvent) (xs : List α) (h : ∀ x ∈ xs, call x = .ok ()) :
    runLoop call ev xs = (xs.map ev, none) := by
  induction xs with
  | nil => rfl
  | cons a t ih =>
    have ha := h a (List.mem_cons_self a t)
    simp [runLoop, ha, ih (fun x hx => h x (List.mem_cons_of_mem a hx))]

/-- A loop stops at the first throwing element: the trace holds the
events of the successful prefix plus the failing call, and the error
is propagated. -/
theorem runLoop_first_fail {α : Type} (call : α → JsResult Unit)
    (ev : α → BootEvent) (pre : List α) (a : α) (post : List α)
    (e : String) (hpre : ∀ x ∈ pre, call x = .ok ())
    (ha : call a = .thrown e) :
    runLoop call ev (pre ++ a :: post) = (pre.map ev ++ [ev a], some e) := by
  induction pre with
  | nil => simp [runLoop, ha]
  | cons b t ih =>
    have hb := hpre b (List.mem_cons_self b t)
    simp [runLoop, hb, ih (fun x hx => hpre x (List.mem_cons_of_mem b hx))]

/-- If a loop reports no error, every call succeeded. -/
theorem runLoop_ok_of_none {α : Type} (call : α → JsResult Unit)
    (ev : α → BootEvent) (xs : List α)
    (h : (runLoop call ev xs).2 = none) : ∀ x ∈ xs, call x = .ok () := by
  induction xs with
  | nil => simp
  | cons a t ih =>
    intro x hx
    cases hca : call a with
    | ok v =>
      cases v
      rcases List.mem_cons.mp hx with rfl | hx2
      · exact hca
      · refine ih ?_ x hx2
        simpa [runLoop, hca] using h
    | thrown e => simp [runLoop, hca] at h

/-- Every event in a loop trace is the event of one of its elements. -/
theorem runLoop_events {α : Type} (call : α → JsResult Unit)
    (ev : α → BootEvent) (xs : List α) :
    ∀ b ∈ (runLoop call ev xs).1, ∃ x ∈ xs, b = ev x := by
  induction xs with
  | nil => simp [runLoop]
  | cons a t ih =>
    intro b hb
    cases hca : call a with
    | ok v =>
      simp only [runLoop, hca] at hb
      rcases List.mem_cons.mp hb with rfl | hb2
      · exact ⟨a, List.mem_cons_self a t, rfl⟩
      · obtain ⟨x, hx, hbx⟩ := ih b hb2
        exact ⟨x, List.mem_cons_of_mem a hx, hbx⟩
    | thrown e =>
      simp only [runLoop, hca, List.mem_singleton] at hb
      exact ⟨a, List.mem_cons_self a t, hb⟩

/-- C4: initAll initializes every service first, in registration order,
then every module in registration order, then registers every module
routes, and only reaches route registration when every initialization
succeeded; the first initialization throw ends the run with that error
and without any route registration. -/
theorem c4_bootstrap_order :
    (∀ st : FrameworkState, st.isInitialized = false →
      (∀ s ∈ st.services, s.initResult = .ok ()) →
      (∀ m ∈ st.modules, m.initResult = .ok ()) →
      (∀ m ∈ st.modules, m.routesResult = .ok ()) →
      ArvoxFramework.initAll st
        = (st.services.map (fun s => .initService s.name)
            ++ st.modules.map (fun m => .initModule m.name)
            ++ st.modules.map (fun m => .registerRoutes m.name),
          { st with isInitialized := true }, none))
    ∧ (∀ st pre s post e, st.isInitialized = false →
      st.services = pre ++ s :: post →
      (∀ x ∈ pre, x.initResult = .ok ()) →
      s.initResult = .thrown e →
      ArvoxFramework.initAll st
        = (pre.map (fun x => .initService x.name) ++ [.initService s.name],
          st, some e))
    ∧ (∀ st pre m post e, st.isInitialized = false →
      (∀ x ∈ st.services, x.initResult = .ok ()) →
      st.modules = pre ++ m :: post →
      (∀ x ∈ pre, x.initResult = .ok ()) →
      m.initResult = .thrown e →
      ArvoxFramework.initAll st
        = (st.services.map (fun x => .initService x.name)
            ++ (pre.map (fun x => .initModule x.name)
              ++ [.initModule m.name]),
          st, some e))
    ∧ (∀ st n, BootEvent.registerRoutes n ∈ (ArvoxFramework.initAll st).1 →
      (∀ x ∈ st.services, x.initResult = .ok ())
      ∧ (∀ x ∈ st.modules, x.initResult = .ok ())) := by
  refine ⟨?_, ?_, ?_, ?_⟩
  · intro st hinit hs hm hr
    have h1 := runLoop_all_ok (fun s => s.initResult)
      (fun s => BootEvent.initService s.name) st.services hs
    have h2 := runLoop_all_ok (fun m => m.initResult)
      (fun m => BootEvent.initModule m.name) st.modules hm
    have h3 := runLoop_all_ok (fun m => m.routesResult)
      (fun m => BootEvent.registerRoutes m.name) st.modules hr
    simp [ArvoxFramework.initAll, hinit, runServiceInits, runModuleInits,
      runRouteRegs, h1, h2, h3]
  · intro st pre s post e hinit hserv hpre hs
    have h1 := runLoop_first_fail (fun s => s.initResult)
      (fun s => BootEvent.initService s.name) pre s post e hpre hs
    simp [ArvoxFramework.initAll, hinit, runServiceInits, hserv, h1]
  · intro st pre m post e hinit hs hmods hpre hm
    have h1 := runLoop_all_ok (fun s => s.initResult)
      (fun s => BootEvent.initService s.name) st.services hs
    have h2 := runLoop_first_fail (fun m => m.initResult)
      (fun m => BootEvent.initModule m.name) pre m post e hpre hm
    simp [ArvoxFramework.initAll, hinit, runServiceInits, runModuleInits,
      hmods, h1, h2]
  · intro st n hmem
    by_cases hinit : st.isInitialized
    · simp [ArvoxFramework.initAll, hinit] at hmem
    · cases hs2 : (runServiceInits st.services).2 with
      | some e =>
        have htr : (ArvoxFramework.initAll st).1
            = (runServiceInits st.services).1 := by
          simp [ArvoxFramework.initAll, hinit, hs2]
        rw [htr] at hmem
        obtain ⟨x, _, hx⟩ := runLoop_events (fun s => s.initResult)
          (fun s => BootEvent.initService s.name) st.services
          (BootEvent.registerRoutes n) (by simpa [runServiceInits] using hmem)
        exact absurd hx (by simp)
      | none =>
        have hsok := runLoop_ok_of_none (fun s => s.initResult)
          (fun s => BootEvent.initService s.name) st.services
          (by simpa [runServiceInits] using hs2)
        refine ⟨hsok, ?_⟩
        cases hm2 : (runModuleInits st.modules).2 with
        | some e =>
          have htr : (ArvoxFramework.initAll st).1
              = (runServiceInits st.services).1
                ++ (runModuleInits st.modules).1 := by
            simp [ArvoxFramework.initAll, hinit, hs2, hm2]
          rw [htr, List.mem_append] at hmem
          rcases hmem with hmem | hmem
          · obtain ⟨x, _, hx⟩ := runLoop_events (fun s => s.initResult)
              (fun s => BootEvent.initService s.name) st.services
              (BootEvent.registerRoutes n)
              (by simpa [runServiceInits] using hmem)
            exact absurd hx (by simp)
          · obtain ⟨x, _, hx⟩ := runLoop_events (fun m => m.initResult)
              (fun m => BootEvent.initModule m.name) st.modules
              (BootEvent.registerRoutes n)
              (by simpa [runModuleInits] using hmem)
            exact absurd hx (by simp)
        | none =>
          exact runLoop_ok_of_none (fun m => m.initResult)
            (fun m => BootEvent.initModule m.name) st.modules
            (by simpa [runModuleInits] using hm2)

/-- Witness for c4_bootstrap_order at the end-to-end scenario of the
spec: services A and B initialize before module M, and M routes are
registered last. -/
theorem c4_bootstrap_order_witness :
    ArvoxFramework.initAll scenarioABM
      = ([.initService "A", .initService "B", .initModule "M",
          .registerRoutes "M"],
        { scenarioABM with isInitialized := true }, none) := by
  have h := c4_bootstrap_order.1 scenarioABM rfl
    (by decide) (by decide) (by decide)
  exact h.trans (by decide)

/-- C7: the overall health is healthy exactly when every reported entry
is healthy, degraded whenever at least one entry is unhealthy, and the
unhealthy branch is unreachable. -/
theorem c7_health_aggregation (st : FrameworkState) :
    ((ArvoxFramework.getHealthStatus st).1 = OverallHealth.healthy
      ↔ (∀ p ∈ (ArvoxFramework.getHealthStatus st).2.1, p.2.healthy = true)
        ∧ ∀ p ∈ (ArvoxFramework.getHealthStatus st).2.2,
          p.2.healthy = true)
    ∧ ((∃ p, (p ∈ (ArvoxFramework.getHealthStatus st).2.1
          ∨ p ∈ (ArvoxFramework.getHealthStatus st).2.2)
        ∧ p.2.healthy = false) →
      (ArvoxFramework.getHealthStatus st).1 = OverallHealth.degraded)
    ∧ (ArvoxFramework.getHealthStatus st).1 ≠ OverallHealth.unhealthy := by
  have hgh : ArvoxFramework.getHealthStatus st
      = ((if ((st.services.map (fun s => (s.name, serviceHealthOf s))).all
              (fun p => p.2.healthy)
            && (st.modules.map (fun m => (m.name, moduleHealthOf m))).all
              (fun p => p.2.healthy))
          then OverallHealth.healthy
          else if ((st.services.map (fun s => (s.name, serviceHealthOf s))).any
              (fun p => !p.2.healthy)
            || (st.modules.map (fun m => (m.name, moduleHealthOf m))).any
              (fun p => !p.2.healthy))
          then OverallHealth.degraded
          else OverallHealth.unhealthy),
        st.services.map (fun s => (s.name, serviceHealthOf s)),
        st.modules.map (fun m => (m.name, moduleHealthOf m))) := rfl
  rw [hgh]
  dsimp only
  by_cases hall :
      ((st.services.map (fun s => (s.name, serviceHealthOf s))).all
          (fun p => p.2.healthy)
        && (st.modules.map (fun m => (m.name, moduleHealthOf m))).all
          (fun p => p.2.healthy)) = true
  · rw [if_pos hall]
    rw [Bool.and_eq_true, List.all_eq_true, List.all_eq_true] at hall
    refine ⟨⟨fun _ => hall, fun _ => rfl⟩, ?_, by decide⟩
    rintro ⟨p, hp | hp, hfalse⟩
    · exact absurd (hall.1 p hp) (by simp [hfalse])
    · exact absurd (hall.2 p hp) (by simp [hfalse])
  · have hsome :
        ((st.services.map (fun s => (s.name, serviceHealthOf s))).any
            (fun p => !p.2.healthy)
          || (st.modules.map (fun m => (m.name, moduleHealthOf m))).any
            (fun p => !p.2.healthy)) = true := by
      rw [Bool.or_eq_true, List.any_eq_true, List.any_eq_true]
      by_cases h1 :
          (st.services.map (fun s => (s.name, serviceHealthOf s))).all
            (fun p => p.2.healthy) = true
      · have h2 : ¬ ∀ x ∈ st.modules.map (fun m => (m.name, moduleHealthOf m)),
            x.2.healthy = true := by
          intro hforall
          exact hall (by rw [Bool.and_eq_true, List.all_eq_true,
            List.all_eq_true]; exact ⟨List.all_eq_true.mp h1, hforall⟩)
        push_neg at h2
        obtain ⟨x, hx, hxf⟩ := h2
        exact Or.inr ⟨x, hx, by simpa using hxf⟩
      · have h1n : ¬ ∀ x ∈ st.services.map (fun s => (s.name, serviceHealthOf s)),
            x.2.healthy = true := fun hforall => h1 (List.all_eq_true.mpr hforall)
        push_neg at h1n
        obtain ⟨x, hx, hxf⟩ := h1n
        exact Or.inl ⟨x, hx, by simpa using hxf⟩
    rw [if_neg hall, if_pos hsome]
    refine ⟨⟨fun h => absurd h (by decide), ?_⟩, fun _ => rfl, by decide⟩
    intro h
    exact absurd (by rw [Bool.and_eq_true, List.all_eq_true,
      List.all_eq_true]; exact ⟨h.1, h.2⟩) hall

/-- Witness for c7_health_aggregation: a registry whose one service
reports unhealthy is degraded, not unhealthy. -/
theorem c7_health_aggregation_witness :
    (ArvoxFramework.getHealthStatus scenarioSick).1 = OverallHealth.degraded
    ∧ (ArvoxFramework.getHealthStatus scenarioSick).1
      ≠ OverallHealth.unhealthy := by
  have h := c7_health_aggregation scenarioSick
  refine ⟨h.2.1 ?_, h.2.2⟩
  exact ⟨("S", { healthy := false, message := some "down" }),
    Or.inl (by decide), by decide⟩

/-- C8: validate and safeValidate agree with the underlying schema;
on rejection validate throws a message holding one "path: message"
segment per issue joined by ", ", and safeValidate returns the same
per-field breakdown without throwing. -/
theorem c8_validation_wrappers (B A : Type) (data : B)
    (schema : B → ParseOutcome A) :
    (∀ v, schema data = .ok v →
      ValidationUtil.validate data schema = .ok v
      ∧ ValidationUtil.safeValidate data schema = .success v)
    ∧ ∀ errs, schema data = .issues errs →
      ValidationUtil.validate data schema
        = .thrown ("Validation failed: " ++ String.intercalate ", "
            (errs.map (fun i =>
              String.intercalate "." i.path ++ ": " ++ i.message)))
      ∧ ValidationUtil.safeValidate data schema
        = .failure (errs.map (fun i =>
            { path := String.intercalate "." i.path, message := i.message }))
      ∧ ∀ es, ValidationUtil.safeValidate data schema = .failure es →
        ValidationUtil.validate data schema
          = .thrown ("Validation failed: " ++ String.intercalate ", "
              (es.map (fun e2 => e2.path ++ ": " ++ e2.message)))
        ∧ es.length = errs.length := by
  constructor
  · intro v hv
    exact ⟨by simp [ValidationUtil.validate, hv],
      by simp [ValidationUtil.safeValidate, hv]⟩
  · intro errs herrs
    refine ⟨by simp [ValidationUtil.validate, herrs],
      by simp [ValidationUtil.safeValidate, herrs], ?_⟩
    intro es hes
    rw [ValidationUtil.safeValidate] at hes
    rw [herrs] at hes
    have hes2 : es = errs.map (fun i =>
        { path := String.intercalate "." i.path,
          message := i.message : FieldError }) := by
      cases hes
      rfl
    subst hes2
    constructor
    · simp only [ValidationUtil.validate, herrs, List.map_map]
      rfl
    · simp

/-- Witness for c8_validation_wrappers at the concrete rejecting
schema and the data -1. -/
theorem c8_validation_wrappers_witness :
    ValidationUtil.validate (-1 : Int) nonnegSchema
      = .thrown "Validation failed: a: must be positive, b.c: required"
    ∧ ValidationUtil.safeValidate (-1 : Int) nonnegSchema
      = .failure [{ path := "a", message := "must be positive" },
          { path := "b.c", message := "required" }] := by
  have h := (c8_validation_wrappers Int Int (-1) nonnegSchema).2
    [{ path := ["a"], message := "must be positive" },
      { path := ["b", "c"], message := "required" }] (by decide)
  exact ⟨h.1.trans (by decide), h.2.1.trans (by decide)⟩

/-- C9: shutdown produces exactly one cleanup call per module that
implements cleanup, in registration order, followed by one cleanup
call per service in registration order, independently of any cleanup
outcome (throws are caught), and itself never throws. -/
theorem c9_shutdown_best_effort (st : FrameworkState) :
    ArvoxFramework.shutdown st
      = (st.modules.filter (fun m => m.cleanupImpl.isSome)).map
          (fun m => ShutdownEvent.cleanupModule m.name)
        ++ st.services.map (fun s => ShutdownEvent.cleanupService s.name) := by
  unfold ArvoxFramework.shutdown
  congr 1
  induction st.modules with
  | nil => rfl
  | cons a t ih =>
    cases hc : a.cleanupImpl <;>
      simp [runModuleCleanups, List.filter_cons, hc, ih]

end Arvox
